import Mathlib

/-!
Verification of the rspotd-cli specification against its code.

The repository's own code is the CLI layer in src/main.rs; the generation
engine (the rspotd crate: generate, generate_multiple, seed_to_des,
vals::DEFAULT_SEED) is an external dependency, so it is modelled here from
the specification's contracts (sections 3-4 and 7 of the spec).  The CLI
control flow (argument defaults, branch structure, file handling, exit
behaviour) is embedded directly from src/main.rs.
-/

namespace Rspotd

/-- A calendar date as a (year, month, day) triple of naturals. -/
structure Date where
  y : Nat
  m : Nat
  d : Nat
  deriving DecidableEq, Repr

/-- Modelled from the spec: leap-year test of the Gregorian calendar
(spec 4.2, "leap-year aware"). -/
def isLeap (y : Nat) : Bool :=
  (y % 4 == 0 && y % 100 != 0) || y % 400 == 0

/-- 1 in a leap year, 0 otherwise. -/
def leapN (y : Nat) : Nat := if isLeap y then 1 else 0

/-- Modelled from the spec: number of days of month m in year y
(spec 4.2, "day outside the valid range for that month/year"). -/
def monthLen (y m : Nat) : Nat :=
  if m = 2 then 28 + leapN y
  else if m = 4 ∨ m = 6 ∨ m = 9 ∨ m = 11 then 30 else 31

/-- Days of year y that precede the first day of month m. -/
def monthsBefore (y m : Nat) : Nat :=
  match m with
  | 2 => 31
  | 3 => 59 + leapN y
  | 4 => 90 + leapN y
  | 5 => 120 + leapN y
  | 6 => 151 + leapN y
  | 7 => 181 + leapN y
  | 8 => 212 + leapN y
  | 9 => 243 + leapN y
  | 10 => 273 + leapN y
  | 11 => 304 + leapN y
  | 12 => 334 + leapN y
  | _ => 0

/-- Length of year y in days. -/
def yearLen (y : Nat) : Nat := 365 + leapN y

/-- Days contained in the years 1970, 1971, ..., 1969 + n. -/
def yearsBeforeAux : Nat → Nat
  | 0 => 0
  | n + 1 => yearsBeforeAux n + yearLen (1970 + n)

/-- Days contained in the years from 1970 up to but excluding y. -/
def yearsBefore (y : Nat) : Nat := yearsBeforeAux (y - 1970)

/-- Day count of a date, measured from 1970-01-01 (day 0).  This is the
"end - start in days" measure of the spec's range-completeness property. -/
def dayNumber (x : Date) : Nat :=
  yearsBefore x.y + monthsBefore x.y x.m + (x.d - 1)

/-- Modelled from the spec: a genuine Gregorian date inside the supported
span of years (spec 3 CalendarDate, spec 4.2 with the 1970-2099 span). -/
def validDate (x : Date) : Bool :=
  decide (1970 ≤ x.y) && decide (x.y ≤ 2099) &&
  decide (1 ≤ x.m) && decide (x.m ≤ 12) &&
  decide (1 ≤ x.d) && decide (x.d ≤ monthLen x.y x.m)

/-- The calendar successor of a date. -/
def nextDay (x : Date) : Date :=
  if x.d < monthLen x.y x.m then ⟨x.y, x.m, x.d + 1⟩
  else if x.m < 12 then ⟨x.y, x.m + 1, 1⟩
  else ⟨x.y + 1, 1, 1⟩

/-- Strict chronological (lexicographic) order on dates. -/
def dateLt (a b : Date) : Bool :=
  decide (a.y < b.y) ||
  (decide (a.y = b.y) &&
    (decide (a.m < b.m) || (decide (a.m = b.m) && decide (a.d < b.d))))

/-- Chronological order on dates. -/
def dateLe (a b : Date) : Bool := !dateLt b a

/-- The decimal digit n (n < 10) as a character. -/
def digitChar (n : Nat) : Char := Char.ofNat (48 + n)

/-- A number rendered as exactly two decimal digits, zero-padded. -/
def pad2 (n : Nat) : List Char := [digitChar (n / 10 % 10), digitChar (n % 10)]

/-- A number rendered as exactly four decimal digits, zero-padded. -/
def pad4 (n : Nat) : List Char :=
  [digitChar (n / 1000 % 10), digitChar (n / 100 % 10),
   digitChar (n / 10 % 10), digitChar (n % 10)]

/-- A date in its canonical YYYY-MM-DD string form (the map-key form of
DateRangeResult, and the form produced by the CLI's clock formatting). -/
def dateToString (x : Date) : String :=
  String.mk (pad4 x.y ++ '-' :: (pad2 x.m ++ '-' :: pad2 x.d))

/-- Modelled from the spec: the three validation error kinds of spec 7. -/
inductive PotdError where
  | invalidSeed
  | invalidDate
  | invalidDateRange
  deriving DecidableEq, Repr

/-- Modelled from the spec: the human-readable rendering of an error value
(spec 7, "errors are returned as values describing the kind"); the CLI
prints this Display form. -/
def errMsg : PotdError → String
  | .invalidSeed => "seed must be between 4 and 8 characters"
  | .invalidDate => "invalid date"
  | .invalidDateRange => "start date occurs after end date"

/-- Split a character list at every dash. -/
def splitDash : List Char → List (List Char)
  | [] => [[]]
  | c :: r =>
    if c = '-' then [] :: splitDash r
    else
      match splitDash r with
      | [] => [[c]]
      | g :: gs => (c :: g) :: gs

/-- The numeric value of a decimal digit character. -/
def digitVal (c : Char) : Option Nat :=
  if c.isDigit then some (c.toNat - 48) else none

/-- Parse exactly two decimal digits. -/
def parse2 : List Char → Option Nat
  | [a, b] =>
    match digitVal a, digitVal b with
    | some x, some y => some (10 * x + y)
    | _, _ => none
  | _ => none

/-- Parse exactly four decimal digits. -/
def parse4 : List Char → Option Nat
  | [a, b, c, d] =>
    match digitVal a, digitVal b, digitVal c, digitVal d with
    | some w, some x, some y, some z =>
      some (1000 * w + 100 * x + 10 * y + z)
    | _, _, _, _ => none
  | _ => none

/-- Modelled from the spec: date-string validation and parsing of the
external engine (spec 4.2): the string must be YYYY-MM-DD with numeric
fields and denote a genuine calendar date, otherwise InvalidDate. -/
def parseDate (s : String) : Except PotdError Date :=
  match splitDash s.data with
  | [ys, ms, dsx] =>
    match parse4 ys, parse2 ms, parse2 dsx with
    | some y, some m, some d =>
      if validDate ⟨y, m, d⟩ then .ok ⟨y, m, d⟩ else .error .invalidDate
    | _, _, _ => .error .invalidDate
  | _ => .error .invalidDate

/-- A printable ASCII character. -/
def printableAscii (c : Char) : Bool := 32 ≤ c.toNat && c.toNat ≤ 126

/-- Modelled from the spec: seed validation of the external engine
(spec 3 and 7: length in [4,8], printable ASCII content). -/
def validSeed (s : String) : Bool :=
  decide (4 ≤ s.length) && decide (s.length ≤ 8) && s.data.all printableAscii

/-- The raw byte values of a seed string. -/
def seedBytes (s : String) : List Nat := s.data.map (fun c => c.toNat % 256)

/-- Modelled from the spec: expansion of a 4-8 byte seed to exactly 8 key
bytes by cycling the existing bytes (spec 4.1: bytes are deterministically
repeated, not zero-padded). -/
def cycleTo8 (l : List Nat) : List Nat :=
  (List.range 8).map (fun i => l.getD (i % l.length) 0)

/-- Modelled from the spec: seed-to-key derivation (spec 4.1) producing the
64-bit KeyMaterial; bytes are packed big-endian. -/
def deriveKey (s : String) : Nat :=
  (cycleTo8 (seedBytes s)).foldl (fun acc b => acc * 256 + b) 0

/-- Hexadecimal digit characters. -/
def hexDigit (n : Nat) : Char :=
  if n < 10 then Char.ofNat (48 + n) else Char.ofNat (87 + n)

/-- Modelled from the spec: the diagnostic hexadecimal rendering of the
derived 8-byte key (spec 4.1, the seed_to_des view of the external crate). -/
def seedToDes (s : String) : String :=
  String.mk (((List.range 16).map
    (fun i => hexDigit (deriveKey s / 16 ^ (15 - i) % 16))))

/-- Modelled from the spec: date-to-plaintext encoding (spec 4.2): the
digits of year, month and day packed into the byte positions of a 64-bit
block. -/
def encodeDate (x : Date) : Nat :=
  [x.y / 1000 % 10, x.y / 100 % 10, x.y / 10 % 10, x.y % 10,
   x.m / 10, x.m % 10, x.d / 10, x.d % 10].foldl (fun a b => a * 256 + b) 0

/-- One Feistel round function on a 32-bit half, keyed by a round subkey.
Stand-in mixing function: the spec mandates the legacy cipher's fixed
tables (spec 4.3), which live in the external rspotd crate; no claim
settled here depends on the block values, only on determinism and shape. -/
def feistelF (k r : Nat) : Nat :=
  ((r ^^^ k) * 2654435761 + 40503) % 4294967296

/-- Round subkey i extracted from the 64-bit key material. -/
def subkey (key i : Nat) : Nat := key / 2 ^ (8 * (i % 8)) % 4294967296

/-- One Feistel round: halves swap, the left half is mixed into the right. -/
def feistelRound (key : Nat) (lr : Nat × Nat) (i : Nat) : Nat × Nat :=
  (lr.2, lr.1 ^^^ feistelF (subkey key i) lr.2)

/-- Modelled from the spec: the 16-round Feistel block encryption of a
64-bit plaintext under 64-bit key material (spec 4.3), with the final
half-swap undone as in the classical cipher. -/
def encryptBlock (key block : Nat) : Nat :=
  let l0 := block / 4294967296 % 4294967296
  let r0 := block % 4294967296
  let lr := (List.range 16).foldl (feistelRound key) (l0, r0)
  lr.2 % 4294967296 * 4294967296 + lr.1 % 4294967296

/-- Modelled from the spec: the fixed password alphabet (spec 4.4: digits
and letters with the visually ambiguous 0, O, 1, l, I excluded). -/
def ALPHABET : List Char :=
  "23456789abcdefghijkmnopqrstuvwxyzABCDEFGHJKLMNPQRSTUVWXYZ".data

/-- Modelled from the spec: ciphertext-to-password encoding (spec 4.4):
each of the 8 ciphertext bytes indexes the fixed alphabet by modulo
reduction, in byte order. -/
def encodePassword (c : Nat) : String :=
  String.mk ((List.range 8).map
    (fun i => ALPHABET.getD (c / 2 ^ (8 * (7 - i)) % 256 % ALPHABET.length) '2'))

/-- Modelled from the spec: the post-validation single-date pipeline
Key Deriver, Date Encoder, Cipher Engine, Password Encoder (spec 2, 4.5). -/
def generateCore (x : Date) (seed : String) : String :=
  encodePassword (encryptBlock (deriveKey seed) (encodeDate x))

/-- Modelled from the spec: rspotd::generate (spec 4.5): validate the seed
first, then validate and parse the date, then run the pipeline. -/
def generate (dateStr seed : String) : Except PotdError String :=
  if validSeed seed then
    match parseDate dateStr with
    | .error e => .error e
    | .ok x => .ok (generateCore x seed)
  else .error .invalidSeed

/-- The n+1 consecutive calendar days starting at d. -/
def enumDates (x : Date) : Nat → List Date
  | 0 => [x]
  | n + 1 => x :: enumDates (nextDay x) n

/-- Modelled from the spec: rspotd::generate_multiple (spec 4.6): validate
the seed once, parse both boundary dates, fail with InvalidDateRange when
start is after end, otherwise map the post-seed-validation single-date
pipeline over every day from start to end inclusive, in ascending order,
keyed by the canonical date string. -/
def generate_multiple (startStr endStr seed : String) :
    Except PotdError (List (String × String)) :=
  if validSeed seed then
    match parseDate startStr, parseDate endStr with
    | .ok ds, .ok de =>
      if dateLt de ds then .error .invalidDateRange
      else
        .ok ((enumDates ds (dayNumber de - dayNumber ds)).map
          (fun x => (dateToString x, generateCore x seed)))
    | .error e, _ => .error e
    | _, .error e => .error e
  else .error .invalidSeed

/-- Modelled from the spec: the fixed built-in default seed
(rspotd::vals::DEFAULT_SEED of the external crate; spec 6). -/
def DEFAULT_SEED : String := "ABCDEFGH"

/-- The parsed command-line arguments of src/main.rs (struct Args). -/
structure Args where
  seed : Option String
  date : Option String
  des : Bool
  fmt : Option String
  output : Option String
  range : Option (String × String)
  verbose : Bool
  deriving DecidableEq, Repr

/-- The file-system circumstances the CLI can meet: whether the named
output file already exists, and whether a new file may be created
(permissions). -/
structure Env where
  fileExists : Bool
  canCreate : Bool
  deriving DecidableEq, Repr

/-- How the process ended: a normal exit with a code, or an abort through
a panic (an unwrap of a failed Result in main.rs). -/
inductive ExitKind where
  | normal (code : Nat)
  | panicked
  deriving DecidableEq, Repr

/-- The externally visible outcome of one run of main: the println lines
on standard output, the content written to the named output file (if any),
and how the process ended. -/
structure MainOutcome where
  stdout : List String
  fileOut : Option String
  exit : ExitKind
  deriving DecidableEq, Repr

/-- serde_json::to_string_pretty of the range result map, as written by
main.rs (keys are date strings, values passwords; serialization of a
string-to-string map cannot fail). -/
def toJsonPretty (l : List (String × String)) : String :=
  "\x7b\n" ++
    String.intercalate ",\n"
      (l.map (fun p => "  \"" ++ p.1 ++ "\": \"" ++ p.2 ++ "\"")) ++
  "\n\x7d"

/-- The seed passed to generation: main.rs lines 107-112, the given seed
string exactly, or DEFAULT_SEED when absent. -/
def effSeed (a : Args) : String :=
  match a.seed with
  | none => DEFAULT_SEED
  | some s => s

/-- The date string used by the single-date branch: main.rs lines 114-121,
the given date, or the caller-side clock's current date (current_date(),
formatted YYYY-MM-DD) when absent.  The clock is a parameter. -/
def effDate (today : Date) (a : Args) : String :=
  match a.date with
  | none => dateToString today
  | some s => s

/-- The body of main (src/main.rs lines 82-194) after seed resolution,
embedded branch by branch.  Single-date branch: on a generation error the
message is printed and the process exits 1; on success, if an output file
is named it is opened with create_new and unwrapped, so an existing file
(or failed creation) panics before anything is printed; otherwise the file
is written and the password is printed (with a trailing blank line under
verbose, which exits early).  Range branch: on error, message and exit 1;
on success with an output file, open-or-create (exit 1 with a message when
creation is impossible), write the pretty JSON regardless of the format
flag, print it only under verbose; with no output file, nothing at all is
printed and main falls through to a normal exit 0. -/
def mainCore (today : Date) (env : Env) (a : Args) (seed : String) :
    MainOutcome :=
  let _fmt := a.fmt.getD "text"
  let outputNamed := a.output.isSome
  match a.range with
  | none =>
    let date := effDate today a
    match generate date seed with
    | .error e => ⟨[errMsg e], none, .normal 1⟩
    | .ok potd =>
      if outputNamed then
        if env.fileExists || !env.canCreate then ⟨[], none, .panicked⟩
        else if a.verbose then
          ⟨[potd ++ "\n"], some (potd ++ "\n"), .normal 0⟩
        else ⟨[potd], some (potd ++ "\n"), .normal 0⟩
      else ⟨[potd], none, .normal 0⟩
  | some (b, e) =>
    match generate_multiple b e seed with
    | .error err => ⟨[errMsg err], none, .normal 1⟩
    | .ok m =>
      if outputNamed then
        if !env.fileExists && !env.canCreate then
          ⟨["Unable to create file './" ++ a.output.getD "" ++
            "' due to permissions."], none, .normal 1⟩
        else
          let potd := toJsonPretty m
          if a.verbose then ⟨[potd], some (potd ++ "\n"), .normal 0⟩
          else ⟨[], some (potd ++ "\n"), .normal 0⟩
      else ⟨[], none, .normal 0⟩

/-- One run of main on parsed arguments: seed resolution then mainCore. -/
def mainRun (today : Date) (env : Env) (a : Args) : MainOutcome :=
  mainCore today env a (effSeed a)

/-- The conflict rules declared on Args in src/main.rs: date conflicts
with range (lines 28-34, 61-68), and des conflicts with both date and
range (lines 36-44). -/
def conflictFree (a : Args) : Bool :=
  !(a.date.isSome && a.range.isSome) &&
  !(a.des && (a.date.isSome || a.range.isSome))

/-- Result of a whole program invocation: clap rejects a conflicting
argument combination with a usage error before main's body runs, else
main runs. -/
inductive ProgResult where
  | usageError
  | ran (o : MainOutcome)
  deriving DecidableEq, Repr

/-- Modelled from the spec: the clap argument parser's enforcement of the
declared conflicts (library behaviour, driven by the attribute
declarations on Args in src/main.rs): a conflicting combination is
rejected with a usage error and main's body, and hence any generation,
never runs. -/
def runProgram (today : Date) (env : Env) (a : Args) : ProgResult :=
  if conflictFree a then .ran (mainRun today env a) else .usageError

/-- The generation call an invocation performs (range or single-date),
with its password payload forgotten: the discriminating step of main's
error handling. -/
def invocationResult (today : Date) (a : Args) : Except PotdError Unit :=
  match a.range with
  | some (b, e) => (generate_multiple b e (effSeed a)).map (fun _ => ())
  | none => (generate (effDate today a) (effSeed a)).map (fun _ => ())

/-- Whether the file circumstances let main's success path finish without
a panic or a file-creation error: trivially true when no output file is
named; the range branch opens or creates; the single-date branch insists
on creating a new file. -/
def fileSuccess (env : Env) (a : Args) : Bool :=
  match a.output with
  | none => true
  | some _ =>
    match a.range with
    | some _ => env.fileExists || env.canCreate
    | none => !env.fileExists && env.canCreate

theorem dateLt_iff (a b : Date) :
    dateLt a b = true ↔
      a.y < b.y ∨ (a.y = b.y ∧ (a.m < b.m ∨ (a.m = b.m ∧ a.d < b.d))) := by
  simp [dateLt]

theorem dateLe_iff (a b : Date) :
    dateLe a b = true ↔
      a.y < b.y ∨ (a.y = b.y ∧ (a.m < b.m ∨ (a.m = b.m ∧ a.d ≤ b.d))) := by
  simp [dateLe, dateLt]
  omega

theorem dateLe_refl (a : Date) : dateLe a a = true := by
  rw [dateLe_iff]; omega

theorem dateLt_asymm {a b : Date} (h : dateLe a b = true) :
    dateLt b a = false := by
  rw [dateLe_iff] at h
  rw [← Bool.not_eq_true, dateLt_iff]
  omega

theorem dateLt_of_le_of_ne {a b : Date} (hle : dateLe a b = true)
    (hne : a ≠ b) : dateLt a b = true := by
  rw [dateLe_iff] at hle
  rw [dateLt_iff]
  by_contra hc
  apply hne
  cases a
  cases b
  simp_all
  omega

theorem dateLe_year {a b : Date} (h : dateLe a b = true) : a.y ≤ b.y := by
  rw [dateLe_iff] at h
  omega

theorem validDate_iff (x : Date) :
    validDate x = true ↔
      1970 ≤ x.y ∧ x.y ≤ 2099 ∧ 1 ≤ x.m ∧ x.m ≤ 12 ∧ 1 ≤ x.d ∧
        x.d ≤ monthLen x.y x.m := by
  simp [validDate, and_assoc]

theorem leapN_le_one (y : Nat) : leapN y ≤ 1 := by
  unfold leapN
  split <;> omega

theorem monthLen_ge (y m : Nat) : 28 ≤ monthLen y m := by
  unfold monthLen
  split_ifs <;> omega

theorem monthLen_le (y m : Nat) : monthLen y m ≤ 31 := by
  have := leapN_le_one y
  unfold monthLen
  split_ifs <;> omega

theorem monthsBefore_succ (y : Nat) {m : Nat} (h1 : 1 ≤ m) (h2 : m ≤ 11) :
    monthsBefore y (m + 1) = monthsBefore y m + monthLen y m := by
  interval_cases m <;> simp [monthsBefore, monthLen] <;> omega

theorem monthsBefore_day_lt_yearLen {y m d : Nat} (h1 : 1 ≤ m)
    (h2 : m ≤ 12) (h4 : d ≤ monthLen y m) :
    monthsBefore y m + (d - 1) < yearLen y := by
  have hl := leapN_le_one y
  interval_cases m <;> simp [monthsBefore, monthLen, yearLen] at h4 ⊢ <;> omega

theorem monthsBefore_step_le {m1 m2 : Nat} (y : Nat) (h1 : 1 ≤ m1)
    (h2 : m1 < m2) (h3 : m2 ≤ 12) :
    monthsBefore y m1 + monthLen y m1 ≤ monthsBefore y m2 := by
  have h4 : m1 ≤ 11 := by omega
  interval_cases m1 <;> interval_cases m2 <;>
    simp [monthsBefore, monthLen] <;> omega

theorem yearsBefore_succ {y : Nat} (h : 1970 ≤ y) :
    yearsBefore (y + 1) = yearsBefore y + yearLen y := by
  unfold yearsBefore
  have h1 : y + 1 - 1970 = (y - 1970) + 1 := by omega
  have h2 : 1970 + (y - 1970) = y := by omega
  rw [h1]
  show yearsBeforeAux (y - 1970) + yearLen (1970 + (y - 1970)) = _
  rw [h2]

theorem yearsBefore_le_of_lt {a b : Nat} (ha : 1970 ≤ a) (hab : a < b) :
    yearsBefore a + yearLen a ≤ yearsBefore b := by
  have key : ∀ n, a + 1 ≤ n → yearsBefore a + yearLen a ≤ yearsBefore n := by
    intro n hn
    induction n, hn using Nat.le_induction with
    | base => rw [yearsBefore_succ ha]
    | succ n hn ih =>
      have h70 : 1970 ≤ n := by omega
      rw [yearsBefore_succ h70]
      omega
  exact key b hab

theorem dayNumber_nextDay {x : Date} (h : validDate x = true) :
    dayNumber (nextDay x) = dayNumber x + 1 := by
  rw [validDate_iff] at h
  obtain ⟨h1, h2, h3, h4, h5, h6⟩ := h
  unfold nextDay
  split_ifs with c1 c2
  · simp [dayNumber]
    omega
  · simp [dayNumber]
    rw [monthsBefore_succ x.y h3 (by omega)]
    omega
  · have hm : x.m = 12 := by omega
    have hd31 : x.d = 31 := by
      rw [hm] at h6 c1
      simp [monthLen] at h6 c1
      omega
    simp [dayNumber]
    rw [yearsBefore_succ h1, hm, hd31]
    simp [monthsBefore, monthLen, yearLen]
    omega

theorem validDate_nextDay {x : Date} (h : validDate x = true)
    (hy : (nextDay x).y ≤ 2099) : validDate (nextDay x) = true := by
  rw [validDate_iff] at h
  obtain ⟨h1, h2, h3, h4, h5, h6⟩ := h
  unfold nextDay at hy ⊢
  split_ifs at hy ⊢ with c1 c2
  · rw [validDate_iff]
    simp
    omega
  · have := monthLen_ge x.y (x.m + 1)
    rw [validDate_iff]
    simp
    omega
  · have := monthLen_ge (x.y + 1) 1
    rw [validDate_iff]
    simp at hy ⊢
    omega

theorem dateLt_nextDay (x : Date) : dateLt x (nextDay x) = true := by
  unfold nextDay
  split_ifs <;> rw [dateLt_iff] <;> simp

theorem nextDay_le {x e : Date} (hx : validDate x = true)
    (he : validDate e = true) (hlt : dateLt x e = true) :
    dateLe (nextDay x) e = true := by
  rw [validDate_iff] at hx he
  obtain ⟨hx1, hx2, hx3, hx4, hx5, hx6⟩ := hx
  obtain ⟨he1, he2, he3, he4, he5, he6⟩ := he
  rw [dateLt_iff] at hlt
  rcases hlt with hy | ⟨hy, hm | ⟨hm, hd⟩⟩
  · unfold nextDay
    split_ifs <;> rw [dateLe_iff] <;> simp <;> omega
  · unfold nextDay
    split_ifs <;> rw [dateLe_iff] <;> simp <;> omega
  · have hA : monthLen x.y x.m = monthLen e.y e.m := by rw [hy, hm]
    unfold nextDay
    split_ifs <;> rw [dateLe_iff] <;> simp <;> omega

theorem dayNumber_lt {s e : Date} (hs : validDate s = true)
    (he : validDate e = true) (hlt : dateLt s e = true) :
    dayNumber s < dayNumber e := by
  rw [validDate_iff] at hs he
  obtain ⟨hs1, hs2, hs3, hs4, hs5, hs6⟩ := hs
  obtain ⟨he1, he2, he3, he4, he5, he6⟩ := he
  rw [dateLt_iff] at hlt
  unfold dayNumber
  rcases hlt with hy | ⟨hy, hm | ⟨hm, hd⟩⟩
  · have b1 : monthsBefore s.y s.m + (s.d - 1) < yearLen s.y :=
      monthsBefore_day_lt_yearLen hs3 hs4 hs6
    have b2 : yearsBefore s.y + yearLen s.y ≤ yearsBefore e.y :=
      yearsBefore_le_of_lt hs1 hy
    omega
  · rw [hy]
    have b1 : monthsBefore e.y s.m + monthLen e.y s.m ≤
        monthsBefore e.y e.m := monthsBefore_step_le e.y hs3 hm he4
    have b2 : s.d ≤ monthLen e.y s.m := by rw [← hy]; exact hs6
    omega
  · rw [hy, hm]
    omega

theorem dayNumber_le {s e : Date} (hs : validDate s = true)
    (he : validDate e = true) (hle : dateLe s e = true) :
    dayNumber s ≤ dayNumber e := by
  by_cases hq : s = e
  · rw [hq]
  · exact Nat.le_of_lt (dayNumber_lt hs he (dateLt_of_le_of_ne hle hq))

theorem dateLe_of_dayNumber_le {s e : Date} (hs : validDate s = true)
    (he : validDate e = true) (h : dayNumber s ≤ dayNumber e) :
    dateLe s e = true := by
  cases hb : dateLe s e
  case false =>
    have hlt : dateLt e s = true := by
      simp [dateLe] at hb
      exact hb
    have h2 := dayNumber_lt he hs hlt
    exfalso
    omega
  case true => rfl

theorem date_eq_of_dayNumber {a e : Date} (ha : validDate a = true)
    (he : validDate e = true) (hle : dateLe a e = true)
    (h : dayNumber a = dayNumber e) : a = e := by
  by_contra hne
  have := dayNumber_lt ha he (dateLt_of_le_of_ne hle hne)
  omega

theorem iterate_invariant {s e : Date} (hs : validDate s = true)
    (he : validDate e = true) (hle : dateLe s e = true) :
    ∀ k, k ≤ dayNumber e - dayNumber s →
      validDate (nextDay^[k] s) = true ∧
      dayNumber (nextDay^[k] s) = dayNumber s + k ∧
      dateLe (nextDay^[k] s) e = true := by
  intro k
  induction k with
  | zero =>
    intro _
    rw [Function.iterate_zero_apply]
    exact ⟨hs, by omega, hle⟩
  | succ k ih =>
    intro hk
    obtain ⟨iv, idn, ile⟩ := ih (by omega)
    have hse : dayNumber s ≤ dayNumber e := dayNumber_le hs he hle
    have hlt : dayNumber (nextDay^[k] s) < dayNumber e := by omega
    have hne : nextDay^[k] s ≠ e := by
      intro hq
      rw [hq] at hlt
      omega
    have hltb : dateLt (nextDay^[k] s) e = true :=
      dateLt_of_le_of_ne ile hne
    have hnle : dateLe (nextDay (nextDay^[k] s)) e = true :=
      nextDay_le iv he hltb
    have hnv : validDate (nextDay (nextDay^[k] s)) = true := by
      refine validDate_nextDay iv ?_
      have hy := dateLe_year hnle
      have he2 := (validDate_iff e).mp he
      omega
    have hnd : dayNumber (nextDay (nextDay^[k] s)) =
        dayNumber (nextDay^[k] s) + 1 := dayNumber_nextDay iv
    rw [Function.iterate_succ_apply']
    exact ⟨hnv, by omega, hnle⟩

theorem iterate_reaches {s e : Date} (hs : validDate s = true)
    (he : validDate e = true) (hle : dateLe s e = true) :
    nextDay^[dayNumber e - dayNumber s] s = e := by
  obtain ⟨iv, idn, ile⟩ :=
    iterate_invariant hs he hle (dayNumber e - dayNumber s) (Nat.le_refl _)
  have hse : dayNumber s ≤ dayNumber e := dayNumber_le hs he hle
  exact date_eq_of_dayNumber iv he ile (by omega)

theorem enumDates_length (x : Date) (n : Nat) :
    (enumDates x n).length = n + 1 := by
  induction n generalizing x with
  | zero => rfl
  | succ n ih => simp [enumDates, ih]

theorem enumDates_cons_shape (x : Date) (n : Nat) :
    ∃ t, enumDates x n = x :: t := by
  cases n <;> exact ⟨_, rfl⟩

theorem enumDates_get (x : Date) (n : Nat) :
    ∀ k, k ≤ n → nextDay^[k] x ∈ enumDates x n := by
  intro k
  induction n generalizing x k with
  | zero =>
    intro hk
    interval_cases k
    simp [enumDates]
  | succ n ih =>
    intro hk
    cases k with
    | zero => simp [enumDates]
    | succ k =>
      rw [Function.iterate_succ_apply]
      exact List.mem_cons_of_mem _ (ih (nextDay x) k (by omega))

theorem enumDates_mem (x : Date) (n : Nat) :
    ∀ z ∈ enumDates x n, ∃ k, k ≤ n ∧ z = nextDay^[k] x := by
  induction n generalizing x with
  | zero =>
    intro z hz
    simp [enumDates] at hz
    exact ⟨0, by omega, by simpa using hz⟩
  | succ n ih =>
    intro z hz
    simp only [enumDates, List.mem_cons] at hz
    rcases hz with h | h
    · exact ⟨0, by omega, by simpa using h⟩
    · obtain ⟨k, hk, hzk⟩ := ih (nextDay x) z h
      refine ⟨k + 1, by omega, ?_⟩
      rw [hzk, Function.iterate_succ_apply]

theorem enumDates_head (x : Date) (n : Nat) :
    (enumDates x n).head? = some x := by
  cases n <;> rfl

theorem enumDates_getLast (x : Date) (n : Nat) :
    (enumDates x n).getLast? = some (nextDay^[n] x) := by
  induction n generalizing x with
  | zero => rfl
  | succ n ih =>
    obtain ⟨t, ht⟩ := enumDates_cons_shape (nextDay x) n
    rw [Function.iterate_succ_apply]
    show (x :: enumDates (nextDay x) n).getLast? = _
    rw [ht, List.getLast?_cons_cons, ← ht, ih]

theorem enumDates_chain (x : Date) (n : Nat) :
    List.Chain' (fun a b => dateLt a b = true) (enumDates x n) := by
  induction n generalizing x with
  | zero => simp [enumDates]
  | succ n ih =>
    rw [show enumDates x (n + 1) = x :: enumDates (nextDay x) n from rfl]
    rw [List.chain'_cons']
    refine ⟨?_, ih (nextDay x)⟩
    intro z hz
    rw [enumDates_head] at hz
    simp at hz
    subst hz
    exact dateLt_nextDay x

theorem digitVal_digitChar {n : Nat} (h : n < 10) :
    digitVal (digitChar n) = some n := by
  interval_cases n <;> rfl

theorem digitChar_ne_dash {n : Nat} (h : n < 10) : digitChar n ≠ '-' := by
  interval_cases n <;> decide

theorem pad2_no_dash (n : Nat) : ∀ c ∈ pad2 n, c ≠ '-' := by
  intro c hc
  simp [pad2] at hc
  rcases hc with h | h <;> rw [h] <;>
    exact digitChar_ne_dash (Nat.mod_lt _ (by omega))

theorem pad4_no_dash (n : Nat) : ∀ c ∈ pad4 n, c ≠ '-' := by
  intro c hc
  simp [pad4] at hc
  rcases hc with h | h | h | h <;> rw [h] <;>
    exact digitChar_ne_dash (Nat.mod_lt _ (by omega))

theorem splitDash_append {a : List Char} (ha : ∀ c ∈ a, c ≠ '-')
    (r : List Char) : splitDash (a ++ '-' :: r) = a :: splitDash r := by
  induction a with
  | nil => simp [splitDash]
  | cons c t ih =>
    have hc : c ≠ '-' := ha c (by simp)
    have ht : ∀ z ∈ t, z ≠ '-' := fun z hz => ha z (by simp [hz])
    simp only [List.cons_append, splitDash, if_neg hc, List.append_eq]
    rw [ih ht]

theorem splitDash_no_dash {a : List Char} (ha : ∀ c ∈ a, c ≠ '-') :
    splitDash a = [a] := by
  induction a with
  | nil => rfl
  | cons c t ih =>
    have hc : c ≠ '-' := ha c (by simp)
    have ht : ∀ z ∈ t, z ≠ '-' := fun z hz => ha z (by simp [hz])
    simp only [splitDash, if_neg hc]
    rw [ih ht]

theorem parse2_pad2 {n : Nat} (h : n ≤ 99) : parse2 (pad2 n) = some n := by
  have h1 : n / 10 % 10 < 10 := Nat.mod_lt _ (by omega)
  have h2 : n % 10 < 10 := Nat.mod_lt _ (by omega)
  simp only [pad2, parse2, digitVal_digitChar h1, digitVal_digitChar h2]
  exact congrArg some (by omega)

theorem parse4_pad4 {n : Nat} (h : n ≤ 9999) : parse4 (pad4 n) = some n := by
  have h1 : n / 1000 % 10 < 10 := Nat.mod_lt _ (by omega)
  have h2 : n / 100 % 10 < 10 := Nat.mod_lt _ (by omega)
  have h3 : n / 10 % 10 < 10 := Nat.mod_lt _ (by omega)
  have h4 : n % 10 < 10 := Nat.mod_lt _ (by omega)
  simp only [pad4, parse4, digitVal_digitChar h1, digitVal_digitChar h2,
    digitVal_digitChar h3, digitVal_digitChar h4]
  exact congrArg some (by omega)

theorem parseDate_dateToString {x : Date} (h : validDate x = true) :
    parseDate (dateToString x) = .ok x := by
  have hv := (validDate_iff x).mp h
  obtain ⟨h1, h2, h3, h4, h5, h6⟩ := hv
  have hml := monthLen_le x.y x.m
  have hy4 : x.y ≤ 9999 := by omega
  have hm2 : x.m ≤ 99 := by omega
  have hd2 : x.d ≤ 99 := by omega
  have hsplit : splitDash (dateToString x).data =
      [pad4 x.y, pad2 x.m, pad2 x.d] := by
    show splitDash (pad4 x.y ++ '-' :: (pad2 x.m ++ '-' :: pad2 x.d)) = _
    rw [splitDash_append (pad4_no_dash x.y),
      splitDash_append (pad2_no_dash x.m),
      splitDash_no_dash (pad2_no_dash x.d)]
  unfold parseDate
  rw [hsplit]
  simp only [parse4_pad4 hy4, parse2_pad2 hm2, parse2_pad2 hd2]
  simp [h]

theorem generate_dateToString {x : Date} {seed : String}
    (hs : validSeed seed = true) (hx : validDate x = true) :
    generate (dateToString x) seed = .ok (generateCore x seed) := by
  simp [generate, hs, parseDate_dateToString hx]

theorem generate_multiple_eq {ds de : Date} {seed : String}
    (hs : validSeed seed = true) (h1 : validDate ds = true)
    (h2 : validDate de = true) (hle : dateLe ds de = true) :
    generate_multiple (dateToString ds) (dateToString de) seed =
      .ok ((enumDates ds (dayNumber de - dayNumber ds)).map
        (fun x => (dateToString x, generateCore x seed))) := by
  unfold generate_multiple
  rw [parseDate_dateToString h1, parseDate_dateToString h2]
  simp [hs, dateLt_asymm hle]

/-- C8: for every valid seed and valid dates start and end with
start not after end, range generation on (start, end, seed) returns
exactly (end - start in days) + 1 entries, keyed by every calendar date
in the closed interval in ascending chronological order, each password
equal to the single-date generation for that key under the same seed. -/
theorem range_generation_complete (ds de : Date) (seed : String)
    (hs : validSeed seed = true) (h1 : validDate ds = true)
    (h2 : validDate de = true) (hle : dateLe ds de = true) :
    ∃ l : List (String × String),
      generate_multiple (dateToString ds) (dateToString de) seed = .ok l ∧
      l.length = (dayNumber de - dayNumber ds) + 1 ∧
      (∃ dates : List Date,
        l.map Prod.fst = dates.map dateToString ∧
        dates.head? = some ds ∧
        dates.getLast? = some de ∧
        List.Chain' (fun a b => dateLt a b = true) dates ∧
        (∀ x ∈ dates, validDate x = true ∧ dateLe ds x = true ∧
          dateLe x de = true) ∧
        (∀ x : Date, validDate x = true → dateLe ds x = true →
          dateLe x de = true → x ∈ dates)) ∧
      (∀ p ∈ l, generate p.1 seed = .ok p.2) := by
  refine ⟨_, generate_multiple_eq hs h1 h2 hle, ?_, ?_, ?_⟩
  · simp [enumDates_length]
  · refine ⟨enumDates ds (dayNumber de - dayNumber ds), ?_, ?_, ?_, ?_, ?_, ?_⟩
    · simp [List.map_map, Function.comp]
    · exact enumDates_head ds _
    · rw [enumDates_getLast, iterate_reaches h1 h2 hle]
    · exact enumDates_chain ds _
    · intro x hx
      obtain ⟨k, hk, hxk⟩ := enumDates_mem ds _ x hx
      subst hxk
      obtain ⟨iv, idn, ile⟩ := iterate_invariant h1 h2 hle k hk
      refine ⟨iv, ?_, ile⟩
      exact dateLe_of_dayNumber_le h1 iv (by omega)
    · intro x hvx hlex hxle
      have hreach := iterate_reaches h1 hvx hlex
      have hk1 : dayNumber ds ≤ dayNumber x := dayNumber_le h1 hvx hlex
      have hk2 : dayNumber x ≤ dayNumber de := dayNumber_le hvx h2 hxle
      have hmem := enumDates_get ds (dayNumber de - dayNumber ds)
        (dayNumber x - dayNumber ds) (by omega)
      rw [hreach] at hmem
      exact hmem
  · intro p hp
    simp only [List.mem_map] at hp
    obtain ⟨x, hx, hpx⟩ := hp
    obtain ⟨k, hk, hxk⟩ := enumDates_mem ds _ x hx
    have iv : validDate x = true := by
      subst hxk
      exact (iterate_invariant h1 h2 hle k hk).1
    rw [← hpx]
    exact generate_dateToString hs iv

/-- Witness for C8 at seed "admin" and the range 2023-01-01 to
2023-01-03 (the spec's concrete scenario). -/
theorem range_generation_complete_witness :
    validSeed "admin" = true ∧
    validDate ⟨2023, 1, 1⟩ = true ∧
    validDate ⟨2023, 1, 3⟩ = true ∧
    dateLe ⟨2023, 1, 1⟩ ⟨2023, 1, 3⟩ = true ∧
    (∃ l : List (String × String),
      generate_multiple (dateToString ⟨2023, 1, 1⟩)
        (dateToString ⟨2023, 1, 3⟩) "admin" = .ok l ∧
      l.length = (dayNumber ⟨2023, 1, 3⟩ - dayNumber ⟨2023, 1, 1⟩) + 1 ∧
      (∃ dates : List Date,
        l.map Prod.fst = dates.map dateToString ∧
        dates.head? = some ⟨2023, 1, 1⟩ ∧
        dates.getLast? = some ⟨2023, 1, 3⟩ ∧
        List.Chain' (fun a b => dateLt a b = true) dates ∧
        (∀ x ∈ dates, validDate x = true ∧
          dateLe ⟨2023, 1, 1⟩ x = true ∧ dateLe x ⟨2023, 1, 3⟩ = true) ∧
        (∀ x : Date, validDate x = true → dateLe ⟨2023, 1, 1⟩ x = true →
          dateLe x ⟨2023, 1, 3⟩ = true → x ∈ dates)) ∧
      (∀ p ∈ l, generate p.1 "admin" = .ok p.2)) :=
  ⟨by decide, by decide, by decide, by decide,
    range_generation_complete ⟨2023, 1, 1⟩ ⟨2023, 1, 3⟩ "admin"
      (by decide) (by decide) (by decide) (by decide)⟩

/-- C5: when no seed argument is supplied, generation runs with the fixed
built-in default seed; a supplied seed string is passed to generation
exactly as given. -/
theorem seed_resolution (today : Date) (env : Env) (a : Args) :
    (a.seed = none →
      mainRun today env a = mainCore today env a DEFAULT_SEED) ∧
    (∀ s, a.seed = some s → mainRun today env a = mainCore today env a s) := by
  constructor
  · intro h
    unfold mainRun effSeed
    rw [h]
  · intro s h
    unfold mainRun effSeed
    rw [h]

/-- Witness for C5: the all-defaults invocation uses DEFAULT_SEED. -/
theorem seed_resolution_witness :
    ((⟨none, none, false, none, none, none, false⟩ : Args).seed = none) ∧
    mainRun ⟨2023, 1, 5⟩ ⟨false, true⟩
        ⟨none, none, false, none, none, none, false⟩ =
      mainCore ⟨2023, 1, 5⟩ ⟨false, true⟩
        ⟨none, none, false, none, none, none, false⟩ DEFAULT_SEED :=
  ⟨rfl, (seed_resolution ⟨2023, 1, 5⟩ ⟨false, true⟩
    ⟨none, none, false, none, none, none, false⟩).1 rfl⟩

/-- C6: with no date and no range argument, the run is identical to one
whose date argument is the caller-side clock's current date in its
YYYY-MM-DD form (the clock is the today parameter, resolved in main, not
in the engine). -/
theorem default_date_is_today (today : Date) (env : Env) (a : Args)
    (hd : a.date = none) (hr : a.range = none) :
    mainRun today env a =
      mainRun today env { a with date := some (dateToString today) } := by
  obtain ⟨s, d, de, f, o, r, v⟩ := a
  simp only at hd hr
  subst hd
  subst hr
  rfl

/-- Witness for C6 at the clock date 2023-07-09. -/
theorem default_date_is_today_witness :
    ((⟨none, none, false, none, none, none, false⟩ : Args).date = none) ∧
    ((⟨none, none, false, none, none, none, false⟩ : Args).range = none) ∧
    mainRun ⟨2023, 7, 9⟩ ⟨false, true⟩
        ⟨none, none, false, none, none, none, false⟩ =
      mainRun ⟨2023, 7, 9⟩ ⟨false, true⟩
        ⟨none, some (dateToString ⟨2023, 7, 9⟩), false, none, none, none,
          false⟩ :=
  ⟨rfl, rfl, default_date_is_today ⟨2023, 7, 9⟩ ⟨false, true⟩
    ⟨none, none, false, none, none, none, false⟩ rfl rfl⟩

/-- C7: an argument combination violating the declared conflicts (date
with range, or des with either) is rejected with a usage error before
main's body, and hence any generation, runs. -/
theorem conflicting_args_rejected (today : Date) (env : Env) (a : Args)
    (h : conflictFree a = false) : runProgram today env a = .usageError := by
  simp [runProgram, h]

/-- Witness for C7: the des flag together with a date is rejected. -/
theorem conflicting_args_rejected_witness :
    conflictFree ⟨none, some "2023-01-01", true, none, none, none,
      false⟩ = false ∧
    runProgram ⟨2023, 1, 5⟩ ⟨false, true⟩
      ⟨none, some "2023-01-01", true, none, none, none, false⟩ =
      .usageError :=
  ⟨rfl, conflicting_args_rejected ⟨2023, 1, 5⟩ ⟨false, true⟩
    ⟨none, some "2023-01-01", true, none, none, none, false⟩ rfl⟩

/-- C2 (code bug): the des flag has no effect whatsoever on the outcome
of a run: main never reads it and never calls the key-derivation
hexadecimal rendering, so a des invocation prints an ordinary password
for the current date instead of the DES rendering of the seed. -/
theorem des_flag_has_no_effect (today : Date) (env : Env) (a : Args) :
    mainRun today env a = mainRun today env { a with des := false } := by
  obtain ⟨s, d, de, f, o, r, v⟩ := a
  rfl

/-- C3 (code bug): the format flag has no effect whatsoever on the
outcome of a run: main computes the format string but never uses it (a
range result written to a file is always pretty JSON, and a range result
without an output file is never rendered at all). -/
theorem format_flag_has_no_effect (today : Date) (env : Env) (a : Args)
    (f : Option String) :
    mainRun today env { a with fmt := f } =
      mainRun today env { a with fmt := none } := by
  obtain ⟨s, d, de, f0, o, r, v⟩ := a
  rfl

/-- C1 (code bug): a successful range generation with no output file
named produces no output at all: the computed mapping is dropped and the
process exits 0 having printed nothing. -/
theorem range_without_output_prints_nothing :
    (generate_multiple "2023-01-01" "2023-01-03" DEFAULT_SEED).isOk =
      true ∧
    mainRun ⟨2023, 1, 5⟩ ⟨false, true⟩
      ⟨none, none, false, none, none,
        some ("2023-01-01", "2023-01-03"), false⟩ =
      ⟨[], none, .normal 0⟩ :=
  ⟨by decide, by decide⟩

/-- C4 (amended): a generation validation error always yields exactly the
human-readable message on standard output and normal exit status 1; a
successful generation yields exit status 0 provided the output-file step
does not fail (no file named, or the needed file operation succeeds). -/
theorem exit_status_discipline (today : Date) (env : Env) (a : Args) :
    (∀ ex, invocationResult today a = .error ex →
      mainRun today env a = ⟨[errMsg ex], none, .normal 1⟩) ∧
    ((invocationResult today a).isOk = true → fileSuccess env a = true →
      (mainRun today env a).exit = .normal 0) := by
  simp only [mainRun, mainCore, invocationResult, fileSuccess]
  cases hr : a.range with
  | none =>
    cases hg : generate (effDate today a) (effSeed a) with
    | error e =>
      constructor
      · intro ex hex
        simp [Except.map] at hex
        subst hex
        simp
      · intro hok _
        simp [Except.map, Except.isOk, Except.toBool] at hok
    | ok p =>
      constructor
      · intro ex hex
        simp [Except.map] at hex
      · intro _ hfs
        cases ho : a.output with
        | none => simp [ho]
        | some f =>
          rw [ho] at hfs
          simp at hfs
          obtain ⟨h1, h2⟩ := hfs
          simp [ho, h1, h2]
          cases a.verbose <;> simp
  | some be =>
    obtain ⟨b, e⟩ := be
    simp only []
    cases hg : generate_multiple b e (effSeed a) with
    | error err =>
      constructor
      · intro ex hex
        simp [Except.map] at hex
        subst hex
        simp
      · intro hok _
        simp [Except.map, Except.isOk, Except.toBool] at hok
    | ok m =>
      constructor
      · intro ex hex
        simp [Except.map] at hex
      · intro _ hfs
        cases ho : a.output with
        | none => simp [ho]
        | some f =>
          rw [ho] at hfs
          simp at hfs
          simp only [ho]
          rcases hfs with h1 | h2
          · simp [h1]
            cases a.verbose <;> simp
          · simp [h2]
            cases env.fileExists <;> cases a.verbose <;> simp

/-- Witness for C4: an invalid seed yields the message and exit 1; a
plain successful single-date run exits 0. -/
theorem exit_status_discipline_witness :
    mainRun ⟨2023, 1, 5⟩ ⟨false, true⟩
      ⟨some "abc", none, false, none, none, none, false⟩ =
      ⟨[errMsg .invalidSeed], none, .normal 1⟩ ∧
    (mainRun ⟨2023, 1, 5⟩ ⟨false, true⟩
      ⟨none, some "2023-01-02", false, none, none, none, false⟩).exit =
      .normal 0 :=
  ⟨(exit_status_discipline ⟨2023, 1, 5⟩ ⟨false, true⟩
      ⟨some "abc", none, false, none, none, none, false⟩).1
      .invalidSeed rfl,
    (exit_status_discipline ⟨2023, 1, 5⟩ ⟨false, true⟩
      ⟨none, some "2023-01-02", false, none, none, none, false⟩).2
      rfl rfl⟩

/-- Counterexample to C4 as stated: generation succeeds, yet the process
does not exit with status zero: naming an already-existing output file in
a single-date run makes main panic. -/
theorem exit_status_discipline_counterexample :
    (generate "2023-01-01" DEFAULT_SEED).isOk = true ∧
    mainRun ⟨2023, 1, 5⟩ ⟨true, true⟩
      ⟨none, some "2023-01-01", false, none, some "pwd.txt", none,
        false⟩ =
      ⟨[], none, .panicked⟩ :=
  ⟨by decide, by decide⟩

/-- C9 (amended): a single-date invocation that names an output file
which already exists and whose generation succeeds aborts via a panic:
nothing is printed, nothing is written, the file is not overwritten, and
no normal error report with an exit code is produced. -/
theorem existing_file_panics (today : Date) (env : Env) (a : Args)
    (hr : a.range = none) (ho : a.output.isSome = true)
    (hf : env.fileExists = true)
    (hg : (generate (effDate today a) (effSeed a)).isOk = true) :
    mainRun today env a = ⟨[], none, .panicked⟩ := by
  simp only [mainRun, mainCore]
  rw [hr]
  cases hgr : generate (effDate today a) (effSeed a) with
  | error e =>
    rw [hgr] at hg
    simp [Except.isOk, Except.toBool] at hg
  | ok p => simp [ho, hf]

/-- Witness for C9: an existing output file plus a successful single-date
generation panics. -/
theorem existing_file_panics_witness :
    mainRun ⟨2023, 1, 5⟩ ⟨true, true⟩
      ⟨none, some "2023-02-28", false, none, some "out.txt", none,
        false⟩ =
      ⟨[], none, .panicked⟩ :=
  existing_file_panics ⟨2023, 1, 5⟩ ⟨true, true⟩
    ⟨none, some "2023-02-28", false, none, some "out.txt", none, false⟩
    rfl rfl rfl (by rfl)

/-- Counterexample to C9 as stated: a single-date invocation naming an
existing output file whose generation fails (invalid date) does not
panic: it reports a normal error message and exits 1. -/
theorem existing_file_panics_counterexample :
    mainRun ⟨2023, 1, 5⟩ ⟨true, true⟩
      ⟨none, some "2024-13-01", false, none, some "out.txt", none,
        false⟩ =
      ⟨[errMsg .invalidDate], none, .normal 1⟩ ∧
    (mainRun ⟨2023, 1, 5⟩ ⟨true, true⟩
      ⟨none, some "2024-13-01", false, none, some "out.txt", none,
        false⟩).exit ≠ ExitKind.panicked :=
  ⟨by decide, by decide⟩

/-- C10 (amended): whenever the single-date generation succeeds and the
file step cannot fail (no output file named, or the named file is newly
creatable), the password appears on standard output, also when an output
file is named and the verbose flag is unset: file writing never
suppresses the console copy. -/
theorem password_always_echoed (today : Date) (env : Env) (a : Args)
    (p : String) (hr : a.range = none)
    (hg : generate (effDate today a) (effSeed a) = .ok p)
    (hfs : a.output.isSome = true →
      env.fileExists = false ∧ env.canCreate = true) :
    (mainRun today env a).stdout = [p] ∨
    (mainRun today env a).stdout = [p ++ "\n"] := by
  simp only [mainRun, mainCore]
  rw [hr, hg]
  cases ho : a.output with
  | none => simp
  | some f =>
    obtain ⟨h1, h2⟩ := hfs (by simp [ho])
    simp only [ho, h1, h2]
    cases hv : a.verbose <;> simp

/-- Witness for C10 at date 2023-03-15 with a fresh output file and
verbose unset: the password is still echoed. -/
theorem password_always_echoed_witness :
    (mainRun ⟨2023, 1, 5⟩ ⟨false, true⟩
      ⟨none, some "2023-03-15", false, none, some "file.txt", none,
        false⟩).stdout = [generateCore ⟨2023, 3, 15⟩ DEFAULT_SEED] ∨
    (mainRun ⟨2023, 1, 5⟩ ⟨false, true⟩
      ⟨none, some "2023-03-15", false, none, some "file.txt", none,
        false⟩).stdout =
      [generateCore ⟨2023, 3, 15⟩ DEFAULT_SEED ++ "\n"] :=
  password_always_echoed ⟨2023, 1, 5⟩ ⟨false, true⟩
    ⟨none, some "2023-03-15", false, none, some "file.txt", none, false⟩
    (generateCore ⟨2023, 3, 15⟩ DEFAULT_SEED) rfl (by rfl)
    (fun _ => ⟨rfl, rfl⟩)

/-- Counterexample to C10 as stated: generation succeeds, an output file
is named and verbose is unset, yet nothing appears on standard output,
because the file already exists and main panics on the unwrap. -/
theorem password_always_echoed_counterexample :
    (generate "2023-04-01" DEFAULT_SEED).isOk = true ∧
    (mainRun ⟨2023, 1, 5⟩ ⟨true, true⟩
      ⟨none, some "2023-04-01", false, none, some "file2.txt", none,
        false⟩).stdout = [] :=
  ⟨by decide, by decide⟩

end Rspotd
